import Mathlib

/-!
Shallow embedding of the kanban bucket core of the repository.

The embedded code is `pkg/models/kanban.go` (bucket CRUD and the board
read pipeline `Bucket.ReadAll`) together with the client list view that
calls the position allocator.  Persistent storage is modelled as an
explicit `State` value; an operation that returns an error models the
wholesale rollback of the enclosing transaction, so the pre-state is the
state after a failed call.  External collaborators (the filter-expression
parser, the raw task query, authorization) are modelled as opaque
parameters of a `ReadAllEnv`.  Bucket positions are float64 in the source
and are modelled as exact rationals here.
-/

namespace Vikunja

/-- A row of the `projects` table, restricted to the fields the kanban
code touches (`DefaultBucketID` and `DoneBucketID` live on the project). -/
structure ProjectRow where
  id : Int
  defaultBucketID : Int
  doneBucketID : Int
deriving DecidableEq

/-- A row of the `buckets` table: the persisted fields of `Bucket` in
kanban.go (`ID`, `Title`, `ProjectID`, `Limit`, `Position`,
`CreatedByID`, `Created`).  The xorm-managed `Updated` audit stamp is
maintained by the storage library, not by code under src, and is left
out of the model. -/
structure BucketRow where
  id : Int
  title : String
  projectID : Int
  limit : Int
  position : Rat
  createdByID : Int
  created : Int
deriving DecidableEq

/-- The fields of a task row the kanban code reads or writes: its id and
its `bucket_id` foreign key. -/
structure TaskRow where
  id : Int
  bucketID : Int
deriving DecidableEq

/-- The persistent store: one table per entity, plus the autoincrement
counter the `buckets` table uses for newly inserted rows. -/
structure State where
  projects : List ProjectRow
  buckets : List BucketRow
  tasks : List TaskRow
  nextBucketID : Int
deriving DecidableEq

/-- The error taxonomy used by the embedded operations.  `panic` models a
Go runtime panic (a failed type assertion or a nil-pointer dereference). -/
inductive KanbanError where
  | projectNotFound (id : Int)
  | forbidden
  | lastBucket (bucketID projectID : Int)
  | filterSyntax
  | validation
  | panic
deriving DecidableEq

/-- Whether `sub` occurs at the start of `l`. -/
def startsWithChars : List Char → List Char → Bool
  | [], _ => true
  | _ :: _, [] => false
  | a :: as, b :: bs => a == b && startsWithChars as bs

/-- Whether `sub` occurs anywhere inside `l`. -/
def hasSubstrChars (sub : List Char) : List Char → Bool
  | [] => sub.isEmpty
  | c :: rest => startsWithChars sub (c :: rest) || hasSubstrChars sub rest

/-- Go's `strings.Contains s sub`: reports whether `sub` is within `s`. -/
def stringsContains (s sub : String) : Bool :=
  hasSubstrChars sub.data s.data

/-- The task filter field name for the bucket foreign key
(`taskPropertyBucketID` in the source). -/
def taskPropertyBucketID : String := "bucket_id"

/-- The kanban sort key (`taskPropertyKanbanPosition` in the source). -/
def taskPropertyKanbanPosition : String := "kanban_position"

/-- Ascending sort direction (`orderAscending` in the source). -/
def orderAscending : String := "asc"

/-- The step `y` of folding a bucket list for the lowest-position bucket:
keep the earlier accumulator on ties, as a stable ascending-`position`
lookup does. -/
def minStep (acc y : BucketRow) : BucketRow :=
  if y.position < acc.position then y else acc

/-- The first bucket of `l` in ascending `position` order (xorm's
`OrderBy("position asc").Get`); `none` when the list is empty. -/
def minByPosition : List BucketRow → Option BucketRow
  | [] => none
  | x :: xs => some (xs.foldl minStep x)

/-- The lookup `getDefaultBucketID` from kanban.go: the project's configured default
bucket id when it is non-zero, otherwise the id of the lowest-position
bucket of the project (id 0 when the project has no bucket at all, since
a missed `Get` leaves the zero value in place). -/
def getDefaultBucketID (st : State) (project : ProjectRow) : Int :=
  if project.defaultBucketID ≠ 0 then
    project.defaultBucketID
  else
    match minByPosition (st.buckets.filter (fun bb => bb.projectID == project.id)) with
    | some bucket => bucket.id
    | none => 0

/-- Modelled from the spec: `Project.Update` is not under src; inside
`Bucket.Delete` it persists the project row whose default/done bucket
references were just cleared ("persisting that change first"). -/
def updateProjectRow (st : State) (p : ProjectRow) : State :=
  { st with projects := st.projects.map (fun q => if q.id == p.id then p else q) }

/-- The operation `Bucket.Delete` from kanban.go: refuse to remove the last bucket of a
project; otherwise clear the project's default/done references when they
point at this bucket and persist that, resolve the fallback bucket with
`getDefaultBucketID` (the bucket row is still present at that point),
reassign the tasks of this bucket to the fallback, and delete the bucket
row.  An error return models the rollback of the whole transaction. -/
def bucketDelete (st : State) (b : BucketRow) : Except KanbanError State :=
  let total := (st.buckets.filter (fun bb => bb.projectID == b.projectID)).length
  if total ≤ 1 then
    .error (.lastBucket b.id b.projectID)
  else
    match st.projects.find? (fun p => p.id == b.projectID) with
    | none => .error (.projectNotFound b.projectID)
    | some p =>
      let p1 := if b.id == p.defaultBucketID then { p with defaultBucketID := 0 } else p
      let p2 := if b.id == p1.doneBucketID then { p1 with doneBucketID := 0 } else p1
      let updateProject := (b.id == p.defaultBucketID) || (b.id == p1.doneBucketID)
      let st1 := if updateProject then updateProjectRow st p2 else st
      let fallback := getDefaultBucketID st1 p2
      let st2 := { st1 with
        tasks := st1.tasks.map (fun (t : TaskRow) =>
          if t.bucketID == b.id then { t with bucketID := fallback } else t) }
      let st3 := { st2 with buckets := st2.buckets.filter (fun bb => bb.id != b.id) }
      .ok st3

/-- Modelled from the spec: the request validation layer driven by the
`valid:"required"` tag on `Bucket.Title` (the web-handler code enforcing
the tag is not under src); an empty title is rejected with a
`ValidationError` before anything is persisted. -/
def validateBucketTitle (title : String) : Except KanbanError Unit :=
  if title = "" then .error .validation else .ok ()

/-- Modelled from the spec: `calculateDefaultPosition` is called by
`Bucket.Create` but is not under src; per the spec the allocator uses
"the newly issued identity as a deterministic fallback key" when no
explicit position was provided (scaled so that creation order is kept). -/
def calculateDefaultPosition (entityID : Int) (position : Rat) : Rat :=
  if position = 0 then (entityID : Rat) * 65536 else position

/-- The operation `Bucket.Create` from kanban.go, behind the title validation layer:
assign the creator, insert the row (the autoincrement counter issues the
id), derive the position from the new id when none was given, and persist
the position update. -/
def bucketCreate (st : State) (req : BucketRow) (creatorID : Int) :
    Except KanbanError (State × BucketRow) :=
  match validateBucketTitle req.title with
  | .error e => .error e
  | .ok _ =>
    let id := st.nextBucketID
    let b0 := { req with id := id, createdByID := creatorID }
    let st1 := { st with buckets := st.buckets ++ [b0], nextBucketID := id + 1 }
    let b1 := { b0 with position := calculateDefaultPosition id b0.position }
    let st2 := { st1 with
      buckets := st1.buckets.map (fun bb => if bb.id == b1.id then b1 else bb) }
    .ok (st2, b1)

/-- The operation `Bucket.Update` from kanban.go: an update restricted by
`Cols("title", "limit", "position")` to exactly those three columns of
the row whose id matches. -/
def bucketUpdate (st : State) (b : BucketRow) : State :=
  { st with buckets := st.buckets.map (fun r =>
      if r.id == b.id then { r with title := b.title, limit := b.limit, position := b.position }
      else r) }

/-- Modelled from the spec: `calculateItemPosition`, the client position
allocator; it is imported by the list view under src from a helpers
module that is not under src.  Spec 4.1: both neighbors absent yields the
baseline; only `after` present yields `after / 2` when `after` is
strictly positive and otherwise a value smaller by a fixed decrement;
only `before` present yields `before` plus a fixed increment; both
present yields the arithmetic midpoint. -/
def calculateItemPosition (before after : Option Rat) : Rat :=
  match before, after with
  | none, none => 0
  | none, some a => if 0 < a then a / 2 else a - 65536
  | some b, none => b + 65536
  | some b, some a => (b + a) / 2

/-- A parsed filter value: the kanban code only ever inspects whether the
value of a `bucket_id` predicate is an int64 (a failed type assertion
panics), so values are ints or strings here. -/
inductive FilterValue where
  | int (i : Int)
  | str (s : String)
deriving DecidableEq

/-- One entry of `parsedFilters`: a field name, and the comparison value
(the comparator is irrelevant to the kanban code and omitted). -/
structure ParsedFilter where
  field : String
  value : FilterValue
deriving DecidableEq

/-- One entry of `sortby` (`sortParam` in the source). -/
structure SortParam where
  sortBy : String
  orderBy : String
deriving DecidableEq

/-- The slice of `taskSearchOptions` that `Bucket.ReadAll` reads or
writes: parsed filters, the raw filter string and its timezone, the
forced sort, and pagination/search. -/
structure QueryOpts where
  parsedFilters : List ParsedFilter
  filter : String
  filterTimezone : String
  sortby : List SortParam
  page : Int
  perPage : Int
  search : String
deriving DecidableEq

/-- The external collaborators of `Bucket.ReadAll`, kept opaque: the
authorization answer for this actor and project, the filter-expression
parser (`getTaskFiltersFromFilterString`), and the raw per-project task
query (`getRawTasksForProjects`, returning the fetched tasks and the
total match count). -/
structure ReadAllEnv where
  canRead : Bool
  parseFilter : String → String → Except KanbanError (List ParsedFilter)
  query : Int → QueryOpts → Except KanbanError (List TaskRow × Int)

/-- Insert a bucket into a list already ascending by `position`. -/
def insertByPosition (bb : BucketRow) : List BucketRow → List BucketRow
  | [] => [bb]
  | c :: cs => if bb.position < c.position then bb :: c :: cs else c :: insertByPosition bb cs

/-- The bucket list ascending by `position` (`OrderBy("position")`). -/
def sortByPosition : List BucketRow → List BucketRow
  | [] => []
  | c :: cs => insertByPosition c (sortByPosition cs)

/-- The per-bucket filter string `Bucket.ReadAll` synthesizes: the bucket
predicate alone when no filter text exists, otherwise the original
expression parenthesized and conjoined with the bucket predicate. -/
def bucketFilterString (originalFilter : String) (id : Int) : String :=
  if originalFilter = "" then
    "bucket_id = " ++ toString id
  else
    "(" ++ originalFilter ++ ") && bucket_id = " ++ toString id

/-- The parsed filters `Bucket.ReadAll` hands to the task query for the
bucket `id`: when the raw filter string already contains `"bucket_id"`
(Go `strings.Contains`) the parsed filters are used unchanged, otherwise
the synthesized per-bucket filter string is parsed afresh. -/
def perBucketParsedFilters
    (parse : String → String → Except KanbanError (List ParsedFilter))
    (originalFilter filterTimezone : String)
    (parsedFilters : List ParsedFilter) (id : Int) :
    Except KanbanError (List ParsedFilter) :=
  if stringsContains originalFilter "bucket_id" then
    .ok parsedFilters
  else
    parse (bucketFilterString originalFilter id) filterTimezone

/-- A Go map read `bucketMap[id]`: the stored pointer when the key is
present (which can itself be nil), nil otherwise. -/
def lookupGo (m : List (Int × Option BucketRow)) (id : Int) : Option BucketRow :=
  match m.find? (fun e => e.1 == id) with
  | some e => e.2
  | none => none

/-- The working-set narrowing of `Bucket.ReadAll`: at the first parsed
filter whose field is `bucket_id`, rebuild the bucket map as the single
entry keyed by that filter's value (the looked-up pointer may be nil when
no such bucket was loaded).  A non-int64 value fails the Go type
assertion, which panics. -/
def narrowBucketMap (parsedFilters : List ParsedFilter)
    (m : List (Int × Option BucketRow)) :
    Except KanbanError (List (Int × Option BucketRow)) :=
  match parsedFilters.find? (fun f => f.field == taskPropertyBucketID) with
  | none => .ok m
  | some f =>
    match f.value with
    | .int v => .ok [(v, lookupGo m v)]
    | .str _ => .error .panic

/-- The per-bucket query loop of `Bucket.ReadAll`: for each map entry,
compute the per-bucket parsed filters, dereference the bucket pointer
(nil panics at `bucket.ProjectID`), run the raw task query, and collect
the fetched tasks in iteration order together with each bucket's total
match count. -/
def queryBuckets (env : ReadAllEnv) (opts : QueryOpts) :
    List (Int × Option BucketRow) →
    Except KanbanError (List TaskRow × List (Int × Int))
  | [] => .ok ([], [])
  | (id, obucket) :: rest =>
    match perBucketParsedFilters env.parseFilter opts.filter opts.filterTimezone
        opts.parsedFilters id with
    | .error e => .error e
    | .ok pf =>
      match obucket with
      | none => .error .panic
      | some bucket =>
        match env.query bucket.projectID { opts with parsedFilters := pf } with
        | .error e => .error e
        | .ok (ts, total) =>
          match queryBuckets env opts rest with
          | .error e => .error e
          | .ok (tasks, counts) => .ok (ts ++ tasks, (id, total) :: counts)

/-- Whether `id` is a key of the bucket map. -/
def containsKey (m : List (Int × Option BucketRow)) (id : Int) : Bool :=
  m.any (fun e => e.1 == id)

/-- The task distribution of `Bucket.ReadAll` seen from one bucket: a
fetched task lands in the bucket its `bucket_id` names; a task whose
`bucket_id` is not a key of the map is skipped (and logged), so a bucket
that is not a key receives nothing. -/
def bucketTasks (m : List (Int × Option BucketRow)) (tasks : List TaskRow)
    (id : Int) : List TaskRow :=
  if containsKey m id then tasks.filter (fun t => t.bucketID == id) else []

/-- The per-bucket total recorded by the query loop; 0 for a bucket the
loop never queried (`Count` starts at its zero value). -/
def lookupCount (counts : List (Int × Int)) (id : Int) : Int :=
  match counts.find? (fun e => e.1 == id) with
  | some e => e.2
  | none => 0

/-- A bucket as returned by `Bucket.ReadAll`: the row plus the derived
task count and the distributed tasks. -/
structure BucketOut where
  bucket : BucketRow
  count : Int
  tasks : List TaskRow
deriving DecidableEq

/-- The fetching phase of `Bucket.ReadAll`, in source order: load the
project, authorize, load the project's buckets ascending by position and
build the id-keyed map, parse the collection filter, narrow the working
set when the parsed filters name a bucket id, and run the per-bucket
query loop. -/
def readAllFetch (env : ReadAllEnv) (st : State) (projectID : Int)
    (filterStr filterTimezone search : String) (page perPage : Int) :
    Except KanbanError
      (List BucketRow × List (Int × Option BucketRow) × List TaskRow × List (Int × Int)) :=
  match st.projects.find? (fun p => p.id == projectID) with
  | none => .error (.projectNotFound projectID)
  | some _ =>
    if !env.canRead then .error .forbidden
    else
      let buckets := sortByPosition (st.buckets.filter (fun bb => bb.projectID == projectID))
      let bucketMap := buckets.map (fun bb => (bb.id, some bb))
      match env.parseFilter filterStr filterTimezone with
      | .error e => .error e
      | .ok parsed =>
        let opts : QueryOpts :=
          { parsedFilters := parsed, filter := filterStr, filterTimezone := filterTimezone,
            sortby := [{ sortBy := taskPropertyKanbanPosition, orderBy := orderAscending }],
            page := page, perPage := perPage, search := search }
        match narrowBucketMap parsed bucketMap with
        | .error e => .error e
        | .ok m =>
          match queryBuckets env opts m with
          | .error e => .error e
          | .ok (tasks, counts) => .ok (buckets, m, tasks, counts)

/-- The response assembly of `Bucket.ReadAll`: every loaded bucket of the
project is returned (narrowing only restricted the queried set), carrying
the recorded count and the distributed tasks; the per-page result count
and the total-item count are both the number of loaded buckets. -/
def assembleReadAll :
    List BucketRow × List (Int × Option BucketRow) × List TaskRow × List (Int × Int) →
    List BucketOut × Nat × Int
  | (buckets, m, tasks, counts) =>
    (buckets.map (fun bb =>
        { bucket := bb, count := lookupCount counts bb.id, tasks := bucketTasks m tasks bb.id }),
     buckets.length, (buckets.length : Int))

/-- The endpoint `Bucket.ReadAll` from kanban.go: the fetching phase followed by the
pure response assembly (the task distribution step cannot fail). -/
def readAll (env : ReadAllEnv) (st : State) (projectID : Int)
    (filterStr filterTimezone search : String) (page perPage : Int) :
    Except KanbanError (List BucketOut × Nat × Int) :=
  Except.map assembleReadAll
    (readAllFetch env st projectID filterStr filterTimezone search page perPage)

/-- Whether an `Except` holds a success value. -/
def isOkE {α : Type} : Except KanbanError α → Bool
  | .ok _ => true
  | .error _ => false

instance {ε α : Type} [DecidableEq ε] [DecidableEq α] : DecidableEq (Except ε α) := fun x y =>
  match x, y with
  | .ok a, .ok b =>
    if h : a = b then .isTrue (by rw [h]) else .isFalse (fun hc => h (Except.ok.inj hc))
  | .error a, .error b =>
    if h : a = b then .isTrue (by rw [h]) else .isFalse (fun hc => h (Except.error.inj hc))
  | .ok _, .error _ => .isFalse (fun hc => Except.noConfusion hc)
  | .error _, .ok _ => .isFalse (fun hc => Except.noConfusion hc)

/-- A sample bucket row at position 1 of project 1. -/
def sampleBucketA : BucketRow := ⟨1, "A", 1, 0, 1, 7, 0⟩

/-- A sample bucket row at position 2 of project 1. -/
def sampleBucketB : BucketRow := ⟨2, "B", 1, 0, 2, 7, 0⟩

/-- A store with project 1 holding the two sample buckets and one task in
bucket 1. -/
def twoBucketState : State := ⟨[⟨1, 0, 0⟩], [sampleBucketA, sampleBucketB], [⟨1, 1⟩], 3⟩

/-- An environment whose filter parser yields no predicates and whose
task query returns nothing. -/
def plainEnv : ReadAllEnv := ⟨true, fun _ _ => .ok [], fun _ _ => .ok ([], 0)⟩

/-- An environment whose filter parser yields the single predicate
`bucket_id = 1` for every input. -/
def narrowingEnv : ReadAllEnv :=
  ⟨true, fun _ _ => .ok [⟨"bucket_id", FilterValue.int 1⟩], fun _ _ => .ok ([], 0)⟩

/-- A plausible external parser: `title ~ bucket_id` (a title word match
whose value happens to be the text `bucket_id`) parses to a single
title predicate, and the synthesized conjunction parses to the title
predicate plus the bucket predicate. -/
def c1Parse : String → String → Except KanbanError (List ParsedFilter) :=
  fun s _ =>
    if s = "title ~ bucket_id" then .ok [⟨"title", .str "bucket_id"⟩]
    else if s = "(title ~ bucket_id) && bucket_id = 1" then
      .ok [⟨"title", .str "bucket_id"⟩, ⟨"bucket_id", .int 1⟩]
    else .error .filterSyntax

theorem insertByPosition_length (bb : BucketRow) (l : List BucketRow) :
    (insertByPosition bb l).length = l.length + 1 := by
  induction l with
  | nil => rfl
  | cons c cs ih =>
    unfold insertByPosition
    split
    · simp
    · simp [ih]

theorem sortByPosition_length (l : List BucketRow) :
    (sortByPosition l).length = l.length := by
  induction l with
  | nil => rfl
  | cons c cs ih => simp [sortByPosition, insertByPosition_length, ih]

theorem foldlMinStep_le (xs : List BucketRow) (acc : BucketRow) :
    (xs.foldl minStep acc).position ≤ acc.position ∧
    ∀ c ∈ xs, (xs.foldl minStep acc).position ≤ c.position := by
  induction xs generalizing acc with
  | nil => simp
  | cons y ys ih =>
    rw [List.foldl_cons]
    have h := ih (minStep acc y)
    have hy : (minStep acc y).position ≤ acc.position ∧ (minStep acc y).position ≤ y.position := by
      unfold minStep
      split
      · exact ⟨le_of_lt (by assumption), le_refl _⟩
      · exact ⟨le_refl _, le_of_not_lt (by assumption)⟩
    refine ⟨le_trans h.1 hy.1, ?_⟩
    intro c hc
    rcases List.mem_cons.mp hc with rfl | hc
    · exact le_trans h.1 hy.2
    · exact h.2 c hc

theorem foldlMinStep_mem (xs : List BucketRow) (acc : BucketRow) :
    xs.foldl minStep acc = acc ∨ xs.foldl minStep acc ∈ xs := by
  induction xs generalizing acc with
  | nil => left; rfl
  | cons y ys ih =>
    rw [List.foldl_cons]
    rcases ih (minStep acc y) with h | h
    · rw [h]
      unfold minStep
      split
      · right
        exact List.mem_cons_self _ _
      · left
        rfl
    · right
      exact List.mem_cons_of_mem _ h

/-- C2: `Bucket.Delete` fails with the last-bucket error, carrying the
offending bucket and project ids, exactly when the bucket's project holds
at most one bucket; an error return models the rollback of the whole
transaction, so no bucket, task or project state changes on that failure. -/
theorem c2_last_bucket_guard (st : State) (b : BucketRow) :
    bucketDelete st b = .error (.lastBucket b.id b.projectID) ↔
      (st.buckets.filter (fun bb => bb.projectID == b.projectID)).length ≤ 1 := by
  simp only [bucketDelete]
  split
  · rename_i hle
    simp [hle]
  · rename_i hgt
    split
    · simp [hgt]
    · simp [hgt]

/-- C4: the position allocator, with both neighbors present, returns the
arithmetic midpoint, and for `before < after` the midpoint lies strictly
between the two neighbors (the model uses exact rationals, so the
floating-point exhaustion caveat never triggers). -/
theorem c4_allocate_midpoint (b a : Rat) (h : b < a) :
    calculateItemPosition (some b) (some a) = (b + a) / 2 ∧
    b < calculateItemPosition (some b) (some a) ∧
    calculateItemPosition (some b) (some a) < a := by
  refine ⟨rfl, ?_, ?_⟩
  · show b < (b + a) / 2
    linarith
  · show (b + a) / 2 < a
    linarith

theorem c4_allocate_midpoint_witness :
    (1 : Rat) < 2 ∧
    (calculateItemPosition (some 1) (some 2) = (1 + 2) / 2 ∧
     (1 : Rat) < calculateItemPosition (some 1) (some 2) ∧
     calculateItemPosition (some 1) (some 2) < 2) :=
  ⟨by norm_num, c4_allocate_midpoint 1 2 (by norm_num)⟩

/-- C5: `getDefaultBucketID` returns the project's configured default
bucket id whenever it is non-zero; otherwise it returns the id of a
lowest-position bucket among the project's buckets (stated under the
assumption that the project has at least one bucket). -/
theorem c5_resolve_default_bucket (st : State) (p : ProjectRow) :
    (p.defaultBucketID ≠ 0 → getDefaultBucketID st p = p.defaultBucketID) ∧
    (p.defaultBucketID = 0 →
      ∀ b0 ∈ st.buckets.filter (fun bb => bb.projectID == p.id),
        ∃ bb ∈ st.buckets.filter (fun bb => bb.projectID == p.id),
          getDefaultBucketID st p = bb.id ∧
          ∀ c ∈ st.buckets.filter (fun bb => bb.projectID == p.id),
            bb.position ≤ c.position) := by
  constructor
  · intro h
    unfold getDefaultBucketID
    rw [if_pos h]
  · intro h b0 hb0
    unfold getDefaultBucketID
    rw [if_neg (by simp [h])]
    cases hl : st.buckets.filter (fun bb => bb.projectID == p.id) with
    | nil =>
      rw [hl] at hb0
      cases hb0
    | cons x xs =>
      refine ⟨xs.foldl minStep x, ?_, ?_, ?_⟩
      · rcases foldlMinStep_mem xs x with h' | h'
        · rw [h']
          exact List.mem_cons_self _ _
        · exact List.mem_cons_of_mem _ h'
      · rfl
      · intro c hc
        rcases List.mem_cons.mp hc with hcx | hc
        · rw [hcx]
          exact (foldlMinStep_le xs x).1
        · exact (foldlMinStep_le xs x).2 c hc

theorem c5_resolve_default_bucket_witness :
    getDefaultBucketID twoBucketState ⟨1, 5, 0⟩ = 5 :=
  (c5_resolve_default_bucket twoBucketState ⟨1, 5, 0⟩).1 (by decide)

/-- C6: when the parsed filters contain a bucket-id predicate, the first
such predicate's integer value `v` rebuilds the working bucket map as the
single entry keyed by `v` — for every `v`, also one that names no loaded
bucket (the entry then holds the nil pointer) — and only afterwards does
the per-bucket query loop run over that narrowed map. -/
theorem c6_narrow_working_set (pf : List ParsedFilter) (m : List (Int × Option BucketRow))
    (f : ParsedFilter) (v : Int)
    (hf : pf.find? (fun x => x.field == taskPropertyBucketID) = some f)
    (hv : f.value = FilterValue.int v) :
    narrowBucketMap pf m = .ok [(v, lookupGo m v)] ∧
    ([(v, lookupGo m v)].map Prod.fst) = [v] := by
  unfold narrowBucketMap
  rw [hf]
  simp [hv]

theorem c6_narrow_working_set_witness :
    narrowBucketMap [⟨"bucket_id", FilterValue.int 99⟩] [(1, some sampleBucketA)] =
      .ok [(99, none)] :=
  (c6_narrow_working_set [⟨"bucket_id", FilterValue.int 99⟩] [(1, some sampleBucketA)]
      ⟨"bucket_id", FilterValue.int 99⟩ 99 (by decide) rfl).1

/-- C7: creating a bucket fails with a validation error exactly when the
title is empty; an error return models the rollback of the transaction,
so nothing is persisted on that failure, and a non-empty title never
produces a validation error. -/
theorem c7_create_title_validation (st : State) (req : BucketRow) (creatorID : Int) :
    bucketCreate st req creatorID = .error .validation ↔ req.title = "" := by
  by_cases ht : req.title = "" <;> simp [bucketCreate, validateBucketTitle, ht]

/-- C8: `Bucket.Update` changes at most the title, limit and position
columns: every bucket row after the update comes from a pre-state row
with the same id, project id, creator and creation timestamp. -/
theorem c8_update_frame (st : State) (b r : BucketRow)
    (hr : r ∈ (bucketUpdate st b).buckets) :
    ∃ r0, r0 ∈ st.buckets ∧ r.id = r0.id ∧ r.projectID = r0.projectID ∧
      r.createdByID = r0.createdByID ∧ r.created = r0.created := by
  unfold bucketUpdate at hr
  simp only [List.mem_map] at hr
  obtain ⟨r0, h0, hmap⟩ := hr
  refine ⟨r0, h0, ?_⟩
  rw [← hmap]
  split
  · exact ⟨rfl, rfl, rfl, rfl⟩
  · exact ⟨rfl, rfl, rfl, rfl⟩

theorem c8_update_frame_witness :
    ∃ r0, r0 ∈ (⟨[], [⟨1, "A", 1, 0, 1, 7, 0⟩], [], 2⟩ : State).buckets ∧
      (⟨1, "B", 1, 5, 3, 7, 0⟩ : BucketRow).id = r0.id ∧
      (⟨1, "B", 1, 5, 3, 7, 0⟩ : BucketRow).projectID = r0.projectID ∧
      (⟨1, "B", 1, 5, 3, 7, 0⟩ : BucketRow).createdByID = r0.createdByID ∧
      (⟨1, "B", 1, 5, 3, 7, 0⟩ : BucketRow).created = r0.created :=
  c8_update_frame ⟨[], [⟨1, "A", 1, 0, 1, 7, 0⟩], [], 2⟩ ⟨1, "B", 1, 5, 3, 0, 0⟩
    ⟨1, "B", 1, 5, 3, 7, 0⟩ (by decide)

/-- C1 (counterexample): the code decides whether to inject a bucket
predicate by searching the raw filter string for the substring
`bucket_id`, not by inspecting the parsed filters.  For the filter
`title ~ bucket_id` — whose parsed filters contain no bucket-id
predicate — the claim mandates the effective per-bucket filter
`(title ~ bucket_id) && bucket_id = 1`, but the code leaves the parsed
filters unchanged and never adds a bucket predicate. -/
theorem c1_filter_injection_counterexample :
    ([⟨"title", FilterValue.str "bucket_id"⟩] : List ParsedFilter).all
        (fun f => f.field != taskPropertyBucketID) = true ∧
    bucketFilterString "title ~ bucket_id" 1 = "(title ~ bucket_id) && bucket_id = 1" ∧
    perBucketParsedFilters c1Parse "title ~ bucket_id" ""
        [⟨"title", FilterValue.str "bucket_id"⟩] 1 =
      .ok [⟨"title", FilterValue.str "bucket_id"⟩] ∧
    c1Parse "(title ~ bucket_id) && bucket_id = 1" "" =
      .ok [⟨"title", FilterValue.str "bucket_id"⟩, ⟨"bucket_id", FilterValue.int 1⟩] ∧
    ([⟨"title", FilterValue.str "bucket_id"⟩] : List ParsedFilter) ≠
      [⟨"title", FilterValue.str "bucket_id"⟩, ⟨"bucket_id", FilterValue.int 1⟩] := by
  decide

/-- C1 (amended): for every board read, the per-bucket filter synthesis
is keyed on whether the raw filter string contains the substring
`bucket_id`: if it does, the parsed filters are used unchanged for every
bucket; otherwise the effective per-bucket filter string is exactly
`bucket_id = <b>` when the raw filter is empty and exactly
`(F) && bucket_id = <b>` otherwise, and its parse is what the query for
bucket `b` receives. -/
theorem c1_filter_injection
    (parse : String → String → Except KanbanError (List ParsedFilter))
    (originalFilter filterTimezone : String)
    (parsedFilters : List ParsedFilter) (id : Int) :
    (stringsContains originalFilter "bucket_id" = true →
      perBucketParsedFilters parse originalFilter filterTimezone parsedFilters id =
        .ok parsedFilters) ∧
    (stringsContains originalFilter "bucket_id" = false →
      perBucketParsedFilters parse originalFilter filterTimezone parsedFilters id =
        parse (bucketFilterString originalFilter id) filterTimezone ∧
      (originalFilter = "" →
        bucketFilterString originalFilter id = "bucket_id = " ++ toString id) ∧
      (originalFilter ≠ "" →
        bucketFilterString originalFilter id =
          "(" ++ originalFilter ++ ") && bucket_id = " ++ toString id)) := by
  constructor
  · intro h
    unfold perBucketParsedFilters
    rw [if_pos h]
  · intro h
    refine ⟨?_, ?_, ?_⟩
    · unfold perBucketParsedFilters
      rw [if_neg (by simp [h])]
    · intro hF
      unfold bucketFilterString
      rw [if_pos hF]
    · intro hF
      unfold bucketFilterString
      rw [if_neg hF]

theorem c1_filter_injection_witness :
    perBucketParsedFilters (fun _ _ => Except.ok []) "priority = 3" "" [] 5 = Except.ok [] ∧
    bucketFilterString "priority = 3" 5 = "(priority = 3) && bucket_id = 5" := by
  have h := (c1_filter_injection (fun _ _ => Except.ok []) "priority = 3" "" [] 5).2 (by decide)
  refine ⟨h.1, ?_⟩
  rw [h.2.2 (by decide)]
  decide

/-- C3: deleting the lowest-position bucket of a project whose default
bucket is unset resolves the fallback with the bucket row still present,
so the fallback is the deleted bucket itself: the surviving task keeps
its reference to the deleted bucket, although the claim (and the
function's own documentation, which promises to dissociate all of the
bucket's tasks) requires the fallback to be a remaining bucket and no
item to reference the deleted bucket afterwards. -/
theorem c3_delete_fallback_bug :
    bucketDelete twoBucketState sampleBucketA =
      .ok ⟨[⟨1, 0, 0⟩], [sampleBucketB], [⟨1, 1⟩], 3⟩ ∧
    ([⟨1, 1⟩] : List TaskRow).all (fun t => t.bucketID == sampleBucketA.id) = true ∧
    ([sampleBucketB] : List BucketRow).all (fun bb => bb.id != sampleBucketA.id) = true := by
  refine ⟨rfl, rfl, rfl⟩

/-- C9: in the task distribution of `Bucket.ReadAll`, a fetched task
whose bucket reference is not a key of the bucket map lands in no
bucket's task list, a task whose reference is a key lands in exactly the
bucket its reference names, and the read returns an error exactly when
the fetching phase does — the distribution step itself cannot fail. -/
theorem c9_dangling_reference (m : List (Int × Option BucketRow)) (ts : List TaskRow)
    (env : ReadAllEnv) (st : State) (projectID : Int)
    (filterStr filterTimezone search : String) (page perPage : Int) :
    (∀ t ∈ ts, containsKey m t.bucketID = false → ∀ id, t ∉ bucketTasks m ts id) ∧
    (∀ t ∈ ts, containsKey m t.bucketID = true → t ∈ bucketTasks m ts t.bucketID) ∧
    isOkE (readAll env st projectID filterStr filterTimezone search page perPage) =
      isOkE (readAllFetch env st projectID filterStr filterTimezone search page perPage) := by
  refine ⟨?_, ?_, ?_⟩
  · intro t ht hc id
    unfold bucketTasks
    split
    · rename_i hk
      intro hmem
      have hpred := (List.mem_filter.mp hmem).2
      have heq : t.bucketID = id := by simpa using hpred
      rw [heq] at hc
      simp [hc] at hk
    · simp
  · intro t ht hc
    unfold bucketTasks
    simp [hc, List.mem_filter, ht]
  · unfold readAll
    cases h : readAllFetch env st projectID filterStr filterTimezone search page perPage <;>
      simp [Except.map, isOkE, h]

theorem c9_dangling_reference_witness :
    ((⟨1, 2⟩ : TaskRow) ∉
      bucketTasks [(1, some sampleBucketA)] [⟨1, 2⟩, ⟨2, 1⟩] 1) ∧
    ((⟨2, 1⟩ : TaskRow) ∈
      bucketTasks [(1, some sampleBucketA)] [⟨1, 2⟩, ⟨2, 1⟩] 1) := by
  have h := c9_dangling_reference [(1, some sampleBucketA)] [⟨1, 2⟩, ⟨2, 1⟩]
    plainEnv ⟨[], [], [], 0⟩ 0 "" "" "" 1 50
  exact ⟨h.1 ⟨1, 2⟩ (by decide) (by decide) 1, h.2.1 ⟨2, 1⟩ (by decide) (by decide)⟩

theorem readAllFetch_buckets (env : ReadAllEnv) (st : State) (projectID : Int)
    (filterStr filterTimezone search : String) (page perPage : Int)
    (x : List BucketRow × List (Int × Option BucketRow) × List TaskRow × List (Int × Int))
    (h : readAllFetch env st projectID filterStr filterTimezone search page perPage = .ok x) :
    x.1 = sortByPosition (st.buckets.filter (fun bb => bb.projectID == projectID)) := by
  unfold readAllFetch at h
  split at h
  · simp at h
  · split at h
    · simp at h
    · dsimp only at h
      split at h
      · simp at h
      · split at h
        · simp at h
        · split at h
          · simp at h
          · injection h with h'
            rw [← h']

/-- C10 (counterexample): with a filter naming bucket 1, the working set
used for query synthesis is narrowed to the single bucket 1, yet the read
returns per-page result count 2 and total-item count 2 — the full number
of buckets of the project, not the narrowed count. -/
theorem c10_counterexample :
    readAll narrowingEnv twoBucketState 1 "bucket_id = 1" "" "" 1 50 =
      .ok ([⟨sampleBucketA, 0, []⟩, ⟨sampleBucketB, 0, []⟩], 2, 2) ∧
    narrowBucketMap [⟨"bucket_id", FilterValue.int 1⟩]
        [(1, some sampleBucketA), (2, some sampleBucketB)] = .ok [(1, some sampleBucketA)] ∧
    (2 : Nat) ≠ 1 := by
  refine ⟨rfl, rfl, by decide⟩

/-- C10 (amended): every successful board read returns a per-page result
count and a total-item count both equal to the number of buckets of the
project — independent of page, per-page and search, and independent of
any narrowing of the working bucket set (narrowing restricts only which
buckets are queried, not the returned bucket list). -/
theorem c10_return_counts (env : ReadAllEnv) (st : State) (projectID : Int)
    (filterStr filterTimezone search : String) (page perPage : Int)
    (r : List BucketOut × Nat × Int)
    (h : readAll env st projectID filterStr filterTimezone search page perPage = .ok r) :
    r.2.1 = (st.buckets.filter (fun bb => bb.projectID == projectID)).length ∧
    r.2.2 = ((st.buckets.filter (fun bb => bb.projectID == projectID)).length : Int) := by
  unfold readAll at h
  cases hf : readAllFetch env st projectID filterStr filterTimezone search page perPage with
  | error e =>
    rw [hf] at h
    simp [Except.map] at h
  | ok x =>
    have hb := readAllFetch_buckets env st projectID filterStr filterTimezone search page perPage x hf
    rw [hf] at h
    simp only [Except.map] at h
    injection h with h'
    obtain ⟨bs, m, tasks, counts⟩ := x
    rw [← h']
    unfold assembleReadAll
    dsimp only
    dsimp only at hb
    rw [hb, sortByPosition_length]
    exact ⟨rfl, rfl⟩

theorem c10_return_counts_witness :
    (([⟨sampleBucketA, 0, []⟩, ⟨sampleBucketB, 0, []⟩], 2, (2 : Int)) :
        List BucketOut × Nat × Int).2.1 =
      (twoBucketState.buckets.filter (fun bb => bb.projectID == (1 : Int))).length ∧
    (([⟨sampleBucketA, 0, []⟩, ⟨sampleBucketB, 0, []⟩], 2, (2 : Int)) :
        List BucketOut × Nat × Int).2.2 =
      ((twoBucketState.buckets.filter (fun bb => bb.projectID == (1 : Int))).length : Int) :=
  c10_return_counts plainEnv twoBucketState 1 "" "" "" 1 50
    ([⟨sampleBucketA, 0, []⟩, ⟨sampleBucketB, 0, []⟩], 2, 2) (by rfl)

end Vikunja
